import Mathlib

/-!
Verification of the audio-ident service core algorithms.

This file gives a shallow embedding, in Lean 4, of the pure computational
core of the `audio-ident-service` repository and proves (or refutes) the
frozen specification claims about it.  Python floats are modelled as `ℚ`
(all arithmetic appearing in the verified claims is exact at the tested
values), Python `int` as `ℤ` or `ℕ`, Python strings as `List Char`
(Lean `String` primitives do not reduce inside the kernel), and the
stateful ingestion pipeline as a pure function from an environment
(the results of its external collaborators) to an outcome record that
tracks the externally visible side effects.
-/

namespace AudioIdent

/-- Python `min(a, b)` on two rationals: `a` if `a ≤ b` else `b`. -/
def pyminQ (a b : ℚ) : ℚ := if a ≤ b then a else b

/-- Python `max(a, b)` on two integers: `a` if `b ≤ a` else `b`. -/
def pymaxZ (a b : ℤ) : ℤ := if b ≤ a then a else b

/-- Python `min(a, b)` on two naturals. -/
def pyminN (a b : Nat) : Nat := if a ≤ b then a else b

/-- Python `max(a, b)` on two naturals. -/
def pymaxN (a b : Nat) : Nat := if b ≤ a then a else b

/-- Exact rational division, computable by the kernel (`Rat.inv`, `Rat.mul`
and `Rat.add` are all irreducible, so the corresponding operators cannot be
evaluated by `decide`); proved equal to `a / b` in `divQ_eq_div` below. -/
def divQ (a b : ℚ) : ℚ := Rat.divInt (a.num * (b.den : ℤ)) ((a.den : ℤ) * b.num)

/-- Kernel-computable rational multiplication; equals `a * b`
(`mulQ_eq_mul` below). -/
def mulQ (a b : ℚ) : ℚ := Rat.divInt (a.num * b.num) ((a.den : ℤ) * (b.den : ℤ))

/-- Kernel-computable rational addition; equals `a + b` (`addQ_eq_add`
below). -/
def addQ (a b : ℚ) : ℚ :=
  Rat.divInt (a.num * (b.den : ℤ) + b.num * (a.den : ℤ)) ((a.den : ℤ) * (b.den : ℤ))

/-- Python `int(q)` on an exact rational: truncation toward zero. -/
def pyIntTrunc (q : ℚ) : ℤ := q.num.tdiv (q.den : ℤ)

/-- Kernel-computable sum of a list of rationals; equals `l.sum`
(`sumQ_eq_sum` below). -/
def sumQ (l : List ℚ) : ℚ := l.foldr addQ 0

/-- Python `str.strip()`: remove leading and trailing whitespace
(modelled with `Char.isWhitespace`). -/
def pyStrip (cs : List Char) : List Char :=
  ((cs.dropWhile Char.isWhitespace).reverse.dropWhile Char.isWhitespace).reverse

/-- Python `s.split(",")`: split on every comma; splitting the empty
string yields `[""]`. -/
def splitOnComma : List Char → List (List Char)
  | [] => [[]]
  | c :: rest =>
    if c = ',' then [] :: splitOnComma rest
    else
      match splitOnComma rest with
      | [] => [[c]]
      | g :: gs => (c :: g) :: gs

/-- Numeric value of a decimal digit character. -/
def digitVal (c : Char) : Nat := c.toNat - '0'.toNat

/-- Accept the digit part of a Python integer literal: decimal digits with
single underscores allowed between digits (state `lastDigit` records
whether the previous character was a digit). -/
def pyDigitsAux : Nat → Bool → List Char → Option Nat
  | acc, lastDigit, [] => if lastDigit then some acc else none
  | acc, lastDigit, c :: rest =>
    if c.isDigit then pyDigitsAux (10 * acc + digitVal c) true rest
    else if c = '_' && lastDigit then pyDigitsAux acc false rest
    else none

/-- Python `int(s)` for decimal strings: optional surrounding whitespace,
optional sign, then digits (with underscore grouping); `none` models the
`ValueError` raised on any other input. -/
def pyInt (s : List Char) : Option ℤ :=
  match pyStrip s with
  | '+' :: rest => (pyDigitsAux 0 false rest).map (fun n => (n : ℤ))
  | '-' :: rest => (pyDigitsAux 0 false rest).map (fun n => -(n : ℤ))
  | t => (pyDigitsAux 0 false t).map (fun n => (n : ℤ))

/-- Bit-counting helper with explicit fuel (32 suffices for 32-bit values). -/
def popCountAux : Nat → Nat → Nat
  | 0, _ => 0
  | fuel + 1, n => if n = 0 then 0 else n % 2 + popCountAux fuel (n / 2)

/-- Python `bin(n).count("1")` for `n < 2^32`. -/
def popCount32 (n : Nat) : Nat := popCountAux 32 n

/-- Low 32 bits of a Python integer in two's complement, i.e. `n & 0xFFFFFFFF`
(for any sign of `n`); Lean's `Int.emod` with a positive modulus returns the
representative in `[0, 2^32)`, which is exactly Python's `%`/`&` behaviour. -/
def mask32 (n : ℤ) : Nat := (n % (4294967296 : ℤ)).toNat

/-- Number of positions at which the low 32 bits of `x` and `y` agree:
`32 - popcount((x ^ y) & 0xFFFFFFFF)`; masking each operand first and
xoring the masks is the same as masking the xor. -/
def matchingBits32 (x y : ℤ) : Nat := 32 - popCount32 (mask32 x ^^^ mask32 y)

/-- Python `statistics.median` on rationals: sort ascending; for odd length
take the middle element, for even length the mean of the two middle ones. -/
def median (l : List ℚ) : ℚ :=
  let s := l.insertionSort (· ≤ ·)
  let n := l.length
  if n % 2 = 1 then s.getD (n / 2) 0
  else divQ (addQ (s.getD (n / 2 - 1) 0) (s.getD (n / 2) 0)) 2

/-- Keys of a Python `dict` built by repeated insertion: the distinct
elements of `l` not already in `seen`, in order of first occurrence. -/
def firstOccKeys {α : Type} [DecidableEq α] (seen : List α) : List α → List α
  | [] => []
  | k :: rest =>
    if k ∈ seen then firstOccKeys seen rest
    else k :: firstOccKeys (k :: seen) rest

/-- Track metadata looked up from the relational store; the claims under
verification never inspect the metadata itself, only which track it is. -/
structure TrackInfoM where
  trackId : Nat
deriving DecidableEq

end AudioIdent

namespace AudioIdent.Dedup

/-!  Model of `app/audio/dedup.py`.  -/

/-- Parse of `[int(x) for x in fp.split(",")]`: `none` models the
`ValueError` caught by `_fingerprint_similarity`. -/
def parseFingerprint (s : List Char) : Option (List ℤ) :=
  (splitOnComma s).mapM pyInt

/-- Sum over the overlapping prefix of `32 - popcount((a[i] ^ b[i]) & 0xFFFFFFFF)`
(the `for i in range(min_len)` loop of `_fingerprint_similarity`). -/
def totalMatchingBits (arr1 arr2 : List ℤ) : Nat :=
  (List.zipWith matchingBits32 arr1 arr2).sum

/-- Model of `_fingerprint_similarity` (dedup.py lines 125-165): parse both
comma-separated fingerprints, compare the overlapping prefix by bitwise
Hamming similarity, multiply by the `min_len / max_len` length penalty;
0.0 on parse failure or empty list. -/
def fingerprint_similarity (fp1 fp2 : List Char) : ℚ :=
  match parseFingerprint fp1, parseFingerprint fp2 with
  | some arr1, some arr2 =>
    if arr1.isEmpty || arr2.isEmpty then 0
    else
      let minLen := pyminN arr1.length arr2.length
      if minLen = 0 then 0
      else
        let totalBits := minLen * 32
        let matchingBits := totalMatchingBits arr1 arr2
        let maxLen := pymaxN arr1.length arr2.length
        mulQ (divQ (matchingBits : ℚ) (totalBits : ℚ)) (divQ (minLen : ℚ) (maxLen : ℚ))
  | _, _ => 0

end AudioIdent.Dedup

namespace AudioIdent.Embedding

/-!  Model of `chunk_audio` in `app/audio/embedding.py` (lines 101-152).
The raw sample buffer contents never influence control flow, so a chunk is
modelled by its shape: offset, index, unpadded duration, and the unpadded /
padded sample counts.  -/

def CHUNK_WINDOW_SEC : ℚ := 10
def CHUNK_HOP_SEC : ℚ := 5
def MIN_CHUNK_SEC : ℚ := 1
def SAMPLE_RATE : Nat := 48000

/-- `int(CHUNK_WINDOW_SEC * SAMPLE_RATE)`. -/
def windowSamples : Nat := (pyIntTrunc (mulQ CHUNK_WINDOW_SEC (SAMPLE_RATE : ℚ))).toNat

/-- `int(CHUNK_HOP_SEC * SAMPLE_RATE)`. -/
def hopSamples : Nat := (pyIntTrunc (mulQ CHUNK_HOP_SEC (SAMPLE_RATE : ℚ))).toNat

/-- Shape of one emitted chunk: `(offset_sec, chunk_index, duration_sec)`
as in the source tuple, plus the unpadded and padded sample counts of the
`audio_array` component. -/
structure AudioChunkShape where
  offsetSec : ℚ
  chunkIndex : Nat
  durationSec : ℚ
  actualSamples : Nat
  paddedSamples : Nat
deriving DecidableEq

/-- The `while start < total_samples` loop of `chunk_audio`; `fuel` only
bounds the iteration count (the loop advances `start` by `hopSamples > 0`
each time, so `totalSamples / hopSamples + 1` iterations always suffice). -/
def chunkLoop (totalSamples : Nat) : Nat → Nat → Nat → List AudioChunkShape
  | 0, _, _ => []
  | fuel + 1, start, chunkIndex =>
    if start < totalSamples then
      let e := pyminN (start + windowSamples) totalSamples
      let chunkSamples := e - start
      let chunkDuration := divQ (chunkSamples : ℚ) (SAMPLE_RATE : ℚ)
      if chunkDuration < MIN_CHUNK_SEC then []
      else
        { offsetSec := divQ (start : ℚ) (SAMPLE_RATE : ℚ),
          chunkIndex := chunkIndex,
          durationSec := chunkDuration,
          actualSamples := chunkSamples,
          paddedSamples :=
            if chunkSamples < windowSamples then windowSamples else chunkSamples }
          :: chunkLoop totalSamples fuel (start + hopSamples) (chunkIndex + 1)
    else []

/-- Model of `chunk_audio`: 10 s windows at a 5 s hop over 48 kHz samples,
zero-padding the final short chunk and stopping when the residual is
shorter than `MIN_CHUNK_SEC`. -/
def chunk_audio (totalSamples : Nat) : List AudioChunkShape :=
  if totalSamples = 0 then []
  else chunkLoop totalSamples (totalSamples / hopSamples + 1) 0 0

end AudioIdent.Embedding

namespace AudioIdent.ExactLane

/-!  Model of `app/search/exact.py`.  Track UUIDs are abstracted to `Nat`;
`uuid.UUID(ref_path)` becomes an arbitrary partial parse function
`List Char → Option Nat` supplied as a parameter (candidates whose
reference path does not parse are dropped, as in the source).  -/

/-- One line of Olaf query output (`app/audio/fingerprint.py`, `OlafMatch`). -/
structure OlafMatch where
  matchCount : ℤ
  queryStart : ℚ
  queryStop : ℚ
  referencePath : List Char
  referenceId : ℤ
  referenceStart : ℚ
  referenceStop : ℚ
deriving DecidableEq

/-- Internal candidate (`_ScoredCandidate`): confidence starts at 0.0. -/
structure ScoredCandidate where
  trackUuid : Nat
  alignedHashes : ℤ
  offsetSeconds : Option ℚ
  confidence : ℚ := 0
deriving DecidableEq

def MIN_ALIGNED_HASHES : ℤ := 8

def STRONG_MATCH_HASHES : ℤ := 20

/-- All `(window_idx, match)` pairs in the iteration order of the grouping
loop of `_consensus_score` (windows enumerated in order, matches in each
window in order). -/
def windowPairs (windowResults : List (List OlafMatch)) : List (Nat × OlafMatch) :=
  (windowResults.enum.map (fun p => p.2.map (fun m => (p.1, m)))).flatten

/-- The grouping key: `match.reference_path.strip()`. -/
def strippedPath (p : Nat × OlafMatch) : List Char := pyStrip p.2.referencePath

/-- The `track_windows[ref_path]` group: all pairs with this key, in order. -/
def groupOf (k : List Char) (windowResults : List (List OlafMatch)) :
    List (Nat × OlafMatch) :=
  (windowPairs windowResults).filter (fun p => strippedPath p = k)

/-- `len({wm[0] for wm in window_matches})`: the number of distinct windows
matching reference path `k` (the claim's `W`). -/
def numWindows (windowResults : List (List OlafMatch)) (k : List Char) : Nat :=
  (((groupOf k windowResults).map Prod.fst).dedup).length

/-- `sum(m.match_count for _, m in window_matches)` (the claim's `S`). -/
def sumHashes (windowResults : List (List OlafMatch)) (k : List Char) : ℤ :=
  ((groupOf k windowResults).map (fun p => p.2.matchCount)).sum

/-- The `reconciled_offsets` list: the `reference_start` of every match of
reference path `k`, in order. -/
def refStarts (windowResults : List (List OlafMatch)) (k : List Char) : List ℚ :=
  (groupOf k windowResults).map (fun p => p.2.referenceStart)

/-- Body of the per-track loop of `_consensus_score` (exact.py lines
229-272): parse the reference path, take the median reference start, sum
aligned hashes, and halve (flooring, minimum 1) when only one window
matched. -/
def mkCandidate (parse : List Char → Option Nat)
    (windowResults : List (List OlafMatch)) (k : List Char) :
    Option ScoredCandidate :=
  match parse k with
  | none => none
  | some u =>
    let offs := refStarts windowResults k
    let offset := if offs = [] then none else some (median offs)
    let W := numWindows windowResults k
    let S := sumHashes windowResults k
    some { trackUuid := u,
           alignedHashes := if 2 ≤ W then S else pymaxZ (Int.fdiv S 2) 1,
           offsetSeconds := offset }

/-- Model of `_consensus_score` (exact.py lines 200-273): group matches by
stripped reference path in first-occurrence order and score each group.  -/
def consensus_score (parse : List Char → Option Nat)
    (windowResults : List (List OlafMatch)) : List ScoredCandidate :=
  (firstOccKeys [] ((windowPairs windowResults).map strippedPath)).filterMap
    (mkCandidate parse windowResults)

/-- Model of `_normalize_confidence` (exact.py lines 320-333). -/
def normalize_confidence (alignedHashes : ℤ) : ℚ :=
  if alignedHashes ≤ 0 then 0
  else pyminQ (divQ (alignedHashes : ℚ) (STRONG_MATCH_HASHES : ℚ)) 1

/-- A returned exact match (`ExactMatch` schema). -/
structure ExactMatchM where
  track : TrackInfoM
  confidence : ℚ
  offsetSeconds : Option ℚ
  alignedHashes : ℤ
deriving DecidableEq

/-- Model of `_enrich_with_metadata` (exact.py lines 427-469): look every
candidate's track up in the relational store `db` and silently drop
candidates whose track is absent. -/
def enrich_with_metadata (db : Nat → Option TrackInfoM)
    (candidates : List ScoredCandidate) : List ExactMatchM :=
  candidates.filterMap (fun c =>
    (db c.trackUuid).map (fun t =>
      { track := t, confidence := c.confidence,
        offsetSeconds := c.offsetSeconds, alignedHashes := c.alignedHashes }))

/-- Model of `run_exact_lane` after the Olaf queries (exact.py lines
101-117): `scoredMatches` is the candidate list produced by either
`_consensus_score` (sub-window mode) or `_matches_to_candidates`
(full-clip mode); filter by `MIN_ALIGNED_HASHES`, normalize confidence,
sort by confidence descending (Python's stable sort), truncate to
`maxResults` and enrich with metadata. -/
def run_exact_lane_post (db : Nat → Option TrackInfoM)
    (scoredMatches : List ScoredCandidate) (maxResults : Nat) :
    List ExactMatchM :=
  let filtered := scoredMatches.filter
    (fun m => MIN_ALIGNED_HASHES ≤ m.alignedHashes)
  if filtered = [] then []
  else
    let normalized := filtered.map
      (fun m => { m with confidence := normalize_confidence m.alignedHashes })
    let sorted := normalized.insertionSort
      (fun a b => b.confidence ≤ a.confidence)
    enrich_with_metadata db (sorted.take maxResults)

end AudioIdent.ExactLane

namespace AudioIdent.Aggregation

/-!  Model of `app/search/aggregation.py`.  -/

/-- A chunk hit from the vector store (`ChunkHit`). -/
structure ChunkHit where
  trackId : Nat
  score : ℚ
  chunkIndex : ℤ
  offsetSec : ℚ
deriving DecidableEq

/-- An aggregated track-level result (`TrackResult`). -/
structure TrackResult where
  trackId : Nat
  finalScore : ℚ
  baseScore : ℚ
  diversityBonus : ℚ
  chunkCount : Nat
  topChunkScores : List ℚ
deriving DecidableEq

/-- The `track_chunks[track_id]` group: hits of this track in input order. -/
def trackChunks (chunkHits : List ChunkHit) (tid : Nat) : List ChunkHit :=
  chunkHits.filter (fun h => h.trackId = tid)

/-- `sorted((c.score for c in chunks), reverse=True)`. -/
def sortedScoresDesc (chunkHits : List ChunkHit) (tid : Nat) : List ℚ :=
  ((trackChunks chunkHits tid).map (fun h => h.score)).insertionSort
    (fun a b => b ≤ a)

/-- `sorted_scores[:top_k_per_track]`. -/
def topKScores (chunkHits : List ChunkHit) (tid : Nat) (k : Nat) : List ℚ :=
  (sortedScoresDesc chunkHits tid).take k

/-- `base_score = sum(top_k_scores) / len(top_k_scores)`. -/
def baseScoreOf (chunkHits : List ChunkHit) (tid : Nat) (k : Nat) : ℚ :=
  divQ (sumQ (topKScores chunkHits tid k)) ((topKScores chunkHits tid k).length : ℚ)

/-- `unique_offsets = len({c.offset_sec for c in chunks})`. -/
def uniqueOffsets (chunkHits : List ChunkHit) (tid : Nat) : Nat :=
  (((trackChunks chunkHits tid).map (fun h => h.offsetSec)).dedup).length

/-- `diversity_bonus = min(unique_offsets / 5.0, 1.0) * diversity_weight`. -/
def diversityBonusOf (chunkHits : List ChunkHit) (tid : Nat)
    (diversityWeight : ℚ) : ℚ :=
  mulQ (pyminQ (divQ ((uniqueOffsets chunkHits tid : ℚ)) 5) 1) diversityWeight

/-- Body of the per-track loop of `aggregate_chunk_hits` (aggregation.py
lines 98-127), `none` when the track is the excluded exact match. -/
def mkTrackResult (chunkHits : List ChunkHit) (topKPerTrack : Nat)
    (diversityWeight : ℚ) (exactMatchTrackId : Option Nat) (tid : Nat) :
    Option TrackResult :=
  if exactMatchTrackId = some tid then none
  else
    let base := baseScoreOf chunkHits tid topKPerTrack
    let bonus := diversityBonusOf chunkHits tid diversityWeight
    some { trackId := tid, finalScore := addQ base bonus, baseScore := base,
           diversityBonus := bonus,
           chunkCount := (trackChunks chunkHits tid).length,
           topChunkScores := topKScores chunkHits tid topKPerTrack }

/-- Model of `aggregate_chunk_hits` (aggregation.py lines 63-138): group
hits by track id in first-occurrence order, score each non-excluded track,
and sort by final score descending (Python's stable sort). -/
def aggregate_chunk_hits (chunkHits : List ChunkHit)
    (topKPerTrack : Nat := 3) (diversityWeight : ℚ := mkRat 1 20)
    (exactMatchTrackId : Option Nat := none) : List TrackResult :=
  if chunkHits = [] then []
  else
    let results := (firstOccKeys [] (chunkHits.map (fun h => h.trackId))).filterMap
      (mkTrackResult chunkHits topKPerTrack diversityWeight exactMatchTrackId)
    results.insertionSort (fun a b => b.finalScore ≤ a.finalScore)

end AudioIdent.Aggregation

namespace AudioIdent.Vibe

/-!  Model of `run_vibe_lane` in `app/search/vibe.py` from the point where
the chunk hits have been parsed out of the vector-store response (steps
4-8 of the spec's vibe-lane sequence, vibe.py lines 107-161).  -/

/-- A returned vibe match (`VibeMatch` schema, without the constant
embedding-model name). -/
structure VibeMatchM where
  track : TrackInfoM
  similarity : ℚ
deriving DecidableEq

/-- Default of `settings.vibe_match_threshold` (0.60). -/
def vibe_match_threshold : ℚ := mkRat 3 5

/-- Model of `run_vibe_lane` after Qdrant querying: aggregate the chunk
hits (top-K 3, diversity weight 0.05, optional exact-match exclusion),
drop aggregated tracks below `threshold`, truncate to `maxResults`, look
up metadata (dropping stale tracks) and report
`similarity = min(final_score, 1.0)`. -/
def run_vibe_lane_post (db : Nat → Option TrackInfoM)
    (chunkHits : List Aggregation.ChunkHit) (threshold : ℚ)
    (maxResults : Nat) (exactMatchTrackId : Option Nat) : List VibeMatchM :=
  if chunkHits = [] then []
  else
    let trackResults :=
      Aggregation.aggregate_chunk_hits chunkHits 3 (mkRat 1 20) exactMatchTrackId
    if trackResults = [] then []
    else
      let filteredResults := trackResults.filter
        (fun r => threshold ≤ r.finalScore)
      if filteredResults = [] then []
      else
        (filteredResults.take maxResults).filterMap (fun r =>
          (db r.trackId).map (fun t =>
            { track := t, similarity := pyminQ r.finalScore 1 }))

end AudioIdent.Vibe

namespace AudioIdent.Orchestrator

/-!  Model of `_run_both_lanes` in `app/search/orchestrator.py` (lines
192-270).  The two lanes are scheduled as independent tasks and gathered
with `return_exceptions=True`, so each lane runs to completion (or to its
own timeout / exception) regardless of the other; a lane's outcome is
therefore one of three terminal values, and the classification after the
gather is the pure function below.  -/

/-- Terminal outcome of one lane under its own timeout. -/
inductive LaneOutcome (α : Type) where
  | ok (results : List α)
  | timedOut
  | failed
deriving DecidableEq

/-- `isinstance(result, BaseException)`. -/
def LaneOutcome.isFailure {α : Type} : LaneOutcome α → Bool
  | .ok _ => false
  | _ => true

/-- `isinstance(result, asyncio.TimeoutError)`. -/
def LaneOutcome.isTimeout {α : Type} : LaneOutcome α → Bool
  | .timedOut => true
  | _ => false

/-- The matches a lane contributes to the response: its results on
success, the initial empty list otherwise. -/
def LaneOutcome.matchesOrEmpty {α : Type} : LaneOutcome α → List α
  | .ok results => results
  | _ => []

/-- The two orchestrator-level errors (`SearchTimeoutError`,
`SearchUnavailableError`). -/
inductive SearchFailure where
  | searchTimeout
  | searchUnavailable
deriving DecidableEq

/-- What `_run_both_lanes` does after the gather: either raise one of the
two classification errors or return the pair of match lists. -/
inductive BothLanesResult (α β : Type) where
  | raised (failure : SearchFailure)
  | completed (exactMatches : List α) (vibeMatches : List β)
deriving DecidableEq

/-- Classification of `_run_both_lanes` after both tasks complete: both
lanes failed and both by timeout → timeout error; both failed otherwise →
unavailable error; else a successful pair in which a failed lane
contributes its empty list. -/
def run_both_lanes {α β : Type} (exactResult : LaneOutcome α)
    (vibeResult : LaneOutcome β) : BothLanesResult α β :=
  if exactResult.isFailure && vibeResult.isFailure then
    if exactResult.isTimeout && vibeResult.isTimeout then
      BothLanesResult.raised SearchFailure.searchTimeout
    else BothLanesResult.raised SearchFailure.searchUnavailable
  else BothLanesResult.completed exactResult.matchesOrEmpty vibeResult.matchesOrEmpty

end AudioIdent.Orchestrator

namespace AudioIdent.Pipeline

/-!  Model of `ingest_file` in `app/ingest/pipeline.py` (lines 68-254).
The external collaborators (relational store, decoder, chromaprint tool,
Olaf, the embedding model and the vector store) are abstracted into an
environment holding the value each would return, and the pipeline is the
pure function from that environment to its result plus a record of the
side effects it performed.  Because step 6 runs the content-dedup check
and both index writes in a single `asyncio.gather`, both writes have
already been attempted (and succeeded iff the environment says so) at the
moment line 193 inspects the dedup result; the model exposes the
side-effect state at that moment as `effectsAtContentDupCheck`.  -/

inductive IngestStatus where
  | success
  | duplicate
  | skipped
  | ingestError
deriving DecidableEq

/-- Which message was placed in `IngestResult.error`. -/
inductive IngestReason where
  | tooShort
  | tooLong
  | decodeFailed
  | unexpected
deriving DecidableEq

/-- Results of the pipeline's external collaborators for one run. -/
structure IngestEnv where
  /-- `check_file_duplicate` result (step 2). -/
  fileHashDup : Option Nat
  /-- `decode_dual_rate` outcome: `some n` = success with `n` bytes of
  16 kHz f32le PCM, `none` = `AudioDecodeError`. -/
  decodeResult : Option Nat
  /-- `generate_chromaprint` result (step 6a; `none` = tool failed). -/
  fingerprint : Option (List Char)
  /-- `check_content_duplicate` result, consulted only when a
  fingerprint was produced. -/
  contentDup : Option Nat
  /-- `olaf_index_track` success (step 6b; exceptions yield `false`). -/
  olafSuccess : Bool
  /-- `len(chunks)` produced by step 6c (0 also covers its failure path). -/
  embeddingChunks : Nat
  /-- Whether the step-7 `Track` insert commits. -/
  insertOk : Bool
deriving DecidableEq

/-- Externally visible side effects of one `ingest_file` run. -/
structure SideEffects where
  canonicalCopied : Bool := false
  canonicalDeleted : Bool := false
  olafWritten : Bool := false
  olafDeleted : Bool := false
  qdrantWritten : Bool := false
  qdrantDeleted : Bool := false
  trackInserted : Bool := false
deriving DecidableEq

/-- The `IngestResult` together with the effect trace. -/
structure IngestOutcome where
  status : IngestStatus
  reason : Option IngestReason
  durationSeconds : Option ℚ
  /-- `true` iff phase-2 content dedup reported a duplicate. -/
  contentDupDetected : Bool
  /-- Side-effect state at the moment the content-duplicate branch is
  taken (line 193), `none` when that branch is not reached or not taken. -/
  effectsAtContentDupCheck : Option SideEffects
  finalEffects : SideEffects
deriving DecidableEq

def MIN_INGESTION_DURATION : ℚ := 3

def MAX_INGESTION_DURATION : ℚ := 1800

/-- `pcm_duration_seconds` (decode.py lines 90-105) for f32le:
`len(pcm) / (sample_rate * 4)`. -/
def pcm_duration_seconds (numBytes sampleRate : Nat) : ℚ :=
  divQ (numBytes : ℚ) ((sampleRate * 4 : Nat) : ℚ)

/-- Model of `ingest_file`: step 2 file-hash dedup; step 3 canonical copy;
step 5 decode and duration validation (strict `<` / `>` against the 3 s
and 1800 s bounds); step 6 gather of chromaprint+dedup, Olaf write and
embedding+upsert; on content duplicate, best-effort deletion of whatever
the two index writes wrote; otherwise step 7 Track insert. -/
def ingest_file (env : IngestEnv) : IngestOutcome :=
  match env.fileHashDup with
  | some _ =>
    { status := IngestStatus.duplicate, reason := none, durationSeconds := none,
      contentDupDetected := false, effectsAtContentDupCheck := none,
      finalEffects := {} }
  | none =>
    let afterCopy : SideEffects := { canonicalCopied := true }
    match env.decodeResult with
    | none =>
      { status := IngestStatus.ingestError, reason := some IngestReason.decodeFailed,
        durationSeconds := none, contentDupDetected := false,
        effectsAtContentDupCheck := none, finalEffects := afterCopy }
    | some numBytes =>
      let duration := pcm_duration_seconds numBytes 16000
      if duration < MIN_INGESTION_DURATION then
        { status := IngestStatus.skipped, reason := some IngestReason.tooShort,
          durationSeconds := some duration, contentDupDetected := false,
          effectsAtContentDupCheck := none, finalEffects := afterCopy }
      else if MAX_INGESTION_DURATION < duration then
        { status := IngestStatus.skipped, reason := some IngestReason.tooLong,
          durationSeconds := some duration, contentDupDetected := false,
          effectsAtContentDupCheck := none, finalEffects := afterCopy }
      else
        let afterGather : SideEffects :=
          { afterCopy with olafWritten := env.olafSuccess,
                           qdrantWritten := env.embeddingChunks != 0 }
        let contentDup : Option Nat :=
          match env.fingerprint with
          | some _ => env.contentDup
          | none => none
        match contentDup with
        | some _ =>
          { status := IngestStatus.duplicate, reason := none,
            durationSeconds := some duration, contentDupDetected := true,
            effectsAtContentDupCheck := some afterGather,
            finalEffects :=
              { afterGather with olafDeleted := env.olafSuccess,
                                 qdrantDeleted := env.embeddingChunks != 0 } }
        | none =>
          if env.insertOk then
            { status := IngestStatus.success, reason := none,
              durationSeconds := some duration, contentDupDetected := false,
              effectsAtContentDupCheck := none,
              finalEffects := { afterGather with trackInserted := true } }
          else
            { status := IngestStatus.ingestError,
              reason := some IngestReason.unexpected,
              durationSeconds := some duration, contentDupDetected := false,
              effectsAtContentDupCheck := none, finalEffects := afterGather }

end AudioIdent.Pipeline

namespace AudioIdent

/-!  ## Concrete inputs used by the closed evaluation theorems below.  -/

/-- A content-duplicate ingestion run: no file-hash duplicate, a 10 s
decode (640000 bytes of 16 kHz f32le PCM), a chromaprint that phase-2
dedup matches to track 42, a successful Olaf write and 2 embedded chunks. -/
def c1Env : Pipeline.IngestEnv :=
  { fileHashDup := none, decodeResult := some 640000,
    fingerprint := some ['1'], contentDup := some 42,
    olafSuccess := true, embeddingChunks := 2, insertOk := true }

/-- An ingestion run whose decode yields `n` bytes of 16 kHz f32le PCM
(duration `n / 64000` seconds) and finds no duplicate anywhere. -/
def c2Env (n : Nat) : Pipeline.IngestEnv :=
  { fileHashDup := none, decodeResult := some n,
    fingerprint := none, contentDup := none,
    olafSuccess := true, embeddingChunks := 1, insertOk := true }

/-- Reference-path parser for the consensus-scoring witness: `"a"` is
track 7, everything else fails to parse as a UUID. -/
def c3Parse : List Char → Option Nat := fun k => if k = ['a'] then some 7 else none

/-- Three sub-window results in which all three windows match track `"a"`
with 12 aligned hashes at reference starts 1 s, 3 s and 2 s. -/
def c3Windows : List (List ExactLane.OlafMatch) :=
  [[⟨12, 0, 0, ['a'], 0, 1, 0⟩], [⟨12, 0, 0, ['a'], 0, 3, 0⟩],
   [⟨12, 0, 0, ['a'], 0, 2, 0⟩]]

/-- Chunk hits of the spec's end-to-end scenario 4: track 1 scores
0.9 / 0.85 / 0.8 at offsets 0 / 5 / 10 and track 2 scores 0.75 / 0.7 at
offsets 0 / 5. -/
def c4Hits : List Aggregation.ChunkHit :=
  [⟨1, mkRat 9 10, 0, 0⟩, ⟨1, mkRat 17 20, 1, 5⟩, ⟨1, mkRat 4 5, 2, 10⟩,
   ⟨2, mkRat 3 4, 0, 0⟩, ⟨2, mkRat 7 10, 1, 5⟩]

/-- The aggregated result for track 1 of `c4Hits`: base
`(0.9 + 0.85 + 0.8) / 3 = 0.85`, bonus `min(3/5, 1) × 0.05 = 0.03`,
final `0.88`. -/
def c4Result : Aggregation.TrackResult :=
  { trackId := 1, finalScore := mkRat 22 25, baseScore := mkRat 17 20,
    diversityBonus := mkRat 3 100, chunkCount := 3,
    topChunkScores := [mkRat 9 10, mkRat 17 20, mkRat 4 5] }

/-- Relational store for the exact-lane witness: every track exists. -/
def c5Db : Nat → Option TrackInfoM := fun n => some ⟨n⟩

/-- Scored candidates for the exact-lane witness: a strong match, one
below the minimum-hash threshold, and a moderate match. -/
def c5Scored : List ExactLane.ScoredCandidate :=
  [{ trackUuid := 1, alignedHashes := 25, offsetSeconds := some 0 },
   { trackUuid := 2, alignedHashes := 7, offsetSeconds := none },
   { trackUuid := 3, alignedHashes := 10, offsetSeconds := some 1 }]

/-- The exact match the exact-lane witness asserts about. -/
def c5Match : ExactLane.ExactMatchM :=
  { track := ⟨1⟩, confidence := 1, offsetSeconds := some 0, alignedHashes := 25 }

/-- Chunk hits for the vibe-lane witness: one track with three chunk hits
comfortably above the default threshold. -/
def c7Hits : List Aggregation.ChunkHit :=
  [⟨5, mkRat 9 10, 0, 0⟩, ⟨5, mkRat 17 20, 1, 5⟩, ⟨5, mkRat 4 5, 2, 10⟩]

/-- Relational store for the vibe-lane witness. -/
def c7Db : Nat → Option TrackInfoM := fun n => some ⟨n⟩

/-- The vibe match the vibe-lane witness asserts about. -/
def c7Match : Vibe.VibeMatchM := { track := ⟨5⟩, similarity := mkRat 22 25 }

/-- Relational store for the implicit confidence-floor witness. -/
def c10Db : Nat → Option TrackInfoM := fun n => some ⟨n⟩

/-- A single candidate at exactly the minimum aligned-hash count. -/
def c10Scored : List ExactLane.ScoredCandidate :=
  [{ trackUuid := 4, alignedHashes := 8, offsetSeconds := some 2 }]

/-- The exact match the confidence-floor witness asserts about:
`8` aligned hashes normalize to confidence `8 / 20 = 2 / 5`. -/
def c10Match : ExactLane.ExactMatchM :=
  { track := ⟨4⟩, confidence := mkRat 2 5, offsetSeconds := some 2, alignedHashes := 8 }

/-!  ## Bridging lemmas: the kernel-computable arithmetic equals the
standard Mathlib operations.  -/

theorem divQ_eq_div (a b : ℚ) : divQ a b = a / b := by
  unfold divQ
  rw [Rat.divInt_eq_div]
  rcases eq_or_ne b 0 with rb | rb
  · subst rb; simp
  · have hbn : (b.num : ℚ) ≠ 0 := by
      simpa [Rat.num_eq_zero] using rb
    have had : ((a.den : ℚ)) ≠ 0 := Nat.cast_ne_zero.2 a.den_nz
    have hbd : ((b.den : ℚ)) ≠ 0 := Nat.cast_ne_zero.2 b.den_nz
    conv_rhs => rw [← Rat.num_div_den a, ← Rat.num_div_den b]
    push_cast
    field_simp

theorem mulQ_eq_mul (a b : ℚ) : mulQ a b = a * b := by
  unfold mulQ
  rw [Rat.divInt_eq_div]
  push_cast
  conv_rhs => rw [← Rat.num_div_den a, ← Rat.num_div_den b]
  rw [div_mul_div_comm]

theorem addQ_eq_add (a b : ℚ) : addQ a b = a + b := by
  unfold addQ
  rw [Rat.divInt_eq_div]
  push_cast
  have ha : ((a.den : ℚ)) ≠ 0 := Nat.cast_ne_zero.2 a.den_nz
  have hb : ((b.den : ℚ)) ≠ 0 := Nat.cast_ne_zero.2 b.den_nz
  conv_rhs => rw [← Rat.num_div_den a, ← Rat.num_div_den b]
  rw [div_add_div _ _ ha hb]
  ring_nf

theorem sumQ_eq_sum (l : List ℚ) : sumQ l = l.sum := by
  induction l with
  | nil => rfl
  | cons x xs ih =>
    simp only [sumQ, List.foldr_cons, List.sum_cons] at *
    rw [addQ_eq_add, ih]

theorem pyminQ_eq_min (a b : ℚ) : pyminQ a b = min a b := (min_def a b).symm

theorem pyminN_eq_min (a b : Nat) : pyminN a b = min a b := (min_def a b).symm

theorem pymaxN_eq_max (a b : Nat) : pymaxN a b = max a b := by
  unfold pymaxN
  rw [max_def]
  rcases le_total a b with h | h
  · rcases eq_or_lt_of_le h with rfl | hlt
    · simp
    · rw [if_pos h, if_neg (not_le.2 hlt)]
  · rcases eq_or_lt_of_le h with rfl | hlt
    · simp
    · rw [if_pos h, if_neg (not_le.2 hlt)]

theorem pymaxZ_eq_max (a b : ℤ) : pymaxZ a b = max a b := by
  unfold pymaxZ
  rw [max_def]
  rcases le_total a b with h | h
  · rcases eq_or_lt_of_le h with rfl | hlt
    · simp
    · rw [if_pos h, if_neg (not_le.2 hlt)]
  · rcases eq_or_lt_of_le h with rfl | hlt
    · simp
    · rw [if_pos h, if_neg (not_le.2 hlt)]

theorem divQ_self {x : ℚ} (hx : x ≠ 0) : divQ x x = 1 := by
  rw [divQ_eq_div]; exact div_self hx

theorem pyminN_comm (a b : Nat) : pyminN a b = pyminN b a := by
  rw [pyminN_eq_min, pyminN_eq_min, min_comm]

theorem pymaxN_comm (a b : Nat) : pymaxN a b = pymaxN b a := by
  rw [pymaxN_eq_max, pymaxN_eq_max, max_comm]

/-!  ## List lemmas.  -/

theorem sorted_insertionSort_of {α : Type} (r : α → α → Prop) [DecidableRel r]
    (total : ∀ a b, r a b ∨ r b a)
    (trans : ∀ a b c, r a b → r b c → r a c) (l : List α) :
    List.Sorted r (l.insertionSort r) := by
  haveI : IsTotal α r := ⟨total⟩
  haveI : IsTrans α r := ⟨fun a b c => trans a b c⟩
  exact List.sorted_insertionSort r l

theorem mem_of_mem_firstOccKeys {α : Type} [DecidableEq α] {seen l : List α}
    {a : α} (h : a ∈ firstOccKeys seen l) : a ∈ l := by
  induction l generalizing seen with
  | nil => simp [firstOccKeys] at h
  | cons k rest ih =>
    by_cases hk : k ∈ seen
    · simp only [firstOccKeys, if_pos hk] at h
      exact List.mem_cons_of_mem _ (ih h)
    · simp only [firstOccKeys, if_neg hk, List.mem_cons] at h
      rcases h with rfl | h
      · exact List.mem_cons_self _ _
      · exact List.mem_cons_of_mem _ (ih h)

theorem mem_firstOccKeys_of_mem {α : Type} [DecidableEq α] {seen l : List α}
    {a : α} (h : a ∈ l) (hs : a ∉ seen) : a ∈ firstOccKeys seen l := by
  induction l generalizing seen with
  | nil => cases h
  | cons k rest ih =>
    by_cases hk : k ∈ seen
    · simp only [firstOccKeys, if_pos hk]
      rcases List.mem_cons.1 h with rfl | h'
      · exact absurd hk hs
      · exact ih h' hs
    · simp only [firstOccKeys, if_neg hk, List.mem_cons]
      rcases List.mem_cons.1 h with rfl | h'
      · exact Or.inl rfl
      · by_cases hak : a = k
        · exact Or.inl hak
        · exact Or.inr (ih h' (by simp [hak, hs]))

theorem not_mem_seen_of_mem_firstOccKeys {α : Type} [DecidableEq α]
    {seen l : List α} {a : α} (h : a ∈ firstOccKeys seen l) : a ∉ seen := by
  induction l generalizing seen with
  | nil => simp [firstOccKeys] at h
  | cons k rest ih =>
    by_cases hk : k ∈ seen
    · simp only [firstOccKeys, if_pos hk] at h
      exact ih h
    · simp only [firstOccKeys, if_neg hk, List.mem_cons] at h
      rcases h with rfl | h
      · exact hk
      · intro hmem
        exact ih h (List.mem_cons_of_mem _ hmem)

theorem nodup_firstOccKeys {α : Type} [DecidableEq α] (seen l : List α) :
    (firstOccKeys seen l).Nodup := by
  induction l generalizing seen with
  | nil => simp [firstOccKeys]
  | cons k rest ih =>
    by_cases hk : k ∈ seen
    · simpa only [firstOccKeys, if_pos hk] using ih seen
    · simp only [firstOccKeys, if_neg hk, List.nodup_cons]
      refine ⟨fun hmem => ?_, ih (k :: seen)⟩
      exact not_mem_seen_of_mem_firstOccKeys hmem (List.mem_cons_self _ _)

theorem nodup_map_filterMap {α β γ : Type} (f : α → Option β) (g : β → γ)
    (gi : α → γ) (hfg : ∀ a b, f a = some b → g b = gi a)
    {l : List α} (hl : (l.map gi).Nodup) :
    ((l.filterMap f).map g).Nodup := by
  induction l with
  | nil => simp
  | cons a rest ih =>
    simp only [List.map_cons, List.nodup_cons] at hl
    cases hfa : f a with
    | none => simpa [List.filterMap_cons, hfa] using ih hl.2
    | some b =>
      simp only [List.filterMap_cons, hfa, List.map_cons, List.nodup_cons]
      refine ⟨fun hmem => ?_, ih hl.2⟩
      rcases List.mem_map.1 hmem with ⟨b', hb', hgb'⟩
      rcases List.mem_filterMap.1 hb' with ⟨a', ha', hfa'⟩
      have : gi a ∈ rest.map gi := by
        rw [← hfg a b hfa, ← hgb', hfg a' b' hfa']
        exact List.mem_map_of_mem gi ha'
      exact hl.1 this

/-!  ## Bit-level lemmas for the fingerprint comparison.  -/

theorem matchingBits32_comm (x y : ℤ) : matchingBits32 x y = matchingBits32 y x := by
  unfold matchingBits32
  rw [Nat.xor_comm]

theorem matchingBits32_self (x : ℤ) : matchingBits32 x x = 32 := by
  unfold matchingBits32
  rw [Nat.xor_self]
  rfl

theorem matchingBits32_le (x y : ℤ) : matchingBits32 x y ≤ 32 :=
  Nat.sub_le _ _

end AudioIdent

namespace AudioIdent.Dedup

theorem totalMatchingBits_comm (l1 l2 : List ℤ) :
    totalMatchingBits l1 l2 = totalMatchingBits l2 l1 := by
  unfold totalMatchingBits
  rw [List.zipWith_comm_of_comm matchingBits32 matchingBits32_comm]

theorem totalMatchingBits_self (l : List ℤ) :
    totalMatchingBits l l = l.length * 32 := by
  induction l with
  | nil => rfl
  | cons x xs ih =>
    simp only [totalMatchingBits, List.zipWith_cons_cons, List.sum_cons,
      List.length_cons, matchingBits32_self] at *
    rw [ih]
    ring

theorem totalMatchingBits_le (l1 l2 : List ℤ) :
    totalMatchingBits l1 l2 ≤ pyminN l1.length l2.length * 32 := by
  unfold totalMatchingBits
  have h := List.sum_le_card_nsmul (List.zipWith matchingBits32 l1 l2) 32
    (by
      intro x hx
      rcases List.mem_iff_get.1 hx with ⟨i, hi⟩
      rw [← hi, List.get_zipWith]
      exact matchingBits32_le _ _)
  rw [smul_eq_mul, List.length_zipWith] at h
  rw [pyminN_eq_min]
  exact h

theorem splitOnComma_ne_nil (s : List Char) : splitOnComma s ≠ [] := by
  cases s with
  | nil => simp [splitOnComma]
  | cons c rest =>
    by_cases hc : c = ','
    · simp [splitOnComma, hc]
    · cases h : splitOnComma rest with
      | nil => simp [splitOnComma, hc, h]
      | cons g gs => simp [splitOnComma, hc, h]

theorem parseFingerprint_ne_nil {a : List Char} {l : List ℤ}
    (h : parseFingerprint a = some l) : l ≠ [] := by
  unfold parseFingerprint at h
  rcases List.exists_cons_of_ne_nil (splitOnComma_ne_nil a) with ⟨g, gs, hsplit⟩
  rw [hsplit] at h
  rw [List.mapM_cons] at h
  rcases Option.bind_eq_some.1 h with ⟨v, _, h2⟩
  rcases Option.bind_eq_some.1 h2 with ⟨vs, _, h3⟩
  have hl : v :: vs = l := by simpa using h3
  rw [← hl]
  exact List.cons_ne_nil v vs

end AudioIdent.Dedup

namespace AudioIdent.ExactLane

/-- Decomposition of membership in the post-processing of the exact lane:
every returned match comes from a candidate that passed the
minimum-aligned-hashes filter, carries its normalized confidence and its
aligned-hash count, and was found in the relational store. -/
theorem mem_run_exact_lane_post {db : Nat → Option TrackInfoM}
    {scoredMatches : List ScoredCandidate} {maxResults : Nat} {m : ExactMatchM}
    (h : m ∈ run_exact_lane_post db scoredMatches maxResults) :
    ∃ c ∈ scoredMatches, MIN_ALIGNED_HASHES ≤ c.alignedHashes ∧
      m.confidence = normalize_confidence c.alignedHashes ∧
      m.alignedHashes = c.alignedHashes ∧
      db c.trackUuid = some m.track := by
  simp only [run_exact_lane_post] at h
  split at h
  · cases h
  · rcases List.mem_filterMap.1 h with ⟨c, hc, hsome⟩
    rcases Option.map_eq_some'.1 hsome with ⟨t, hdb, hmk⟩
    have hc1 : c ∈ (scoredMatches.filter
        (fun m => MIN_ALIGNED_HASHES ≤ m.alignedHashes)).map
          (fun m => { m with confidence := normalize_confidence m.alignedHashes }) :=
      ((List.perm_insertionSort _ _).mem_iff).1 (List.mem_of_mem_take hc)
    rcases List.mem_map.1 hc1 with ⟨c0, hc0, hceq⟩
    have hc0' := List.mem_filter.1 hc0
    subst hceq
    refine ⟨c0, hc0'.1, of_decide_eq_true hc0'.2, ?_, ?_, ?_⟩
    · rw [← hmk]
    · rw [← hmk]
    · rw [← hmk]
      exact hdb

end AudioIdent.ExactLane

namespace AudioIdent.Aggregation

/-- Decomposition of membership in the aggregation output: every returned
track result belongs to a track occurring among the hits, is not the
excluded track, and carries exactly the per-track scores of the
aggregation algorithm. -/
theorem mem_aggregate_chunk_hits {chunkHits : List ChunkHit}
    {topKPerTrack : Nat} {diversityWeight : ℚ} {exactMatchTrackId : Option Nat}
    {r : TrackResult}
    (h : r ∈ aggregate_chunk_hits chunkHits topKPerTrack diversityWeight
      exactMatchTrackId) :
    r.trackId ∈ chunkHits.map ChunkHit.trackId ∧
    exactMatchTrackId ≠ some r.trackId ∧
    r.finalScore = addQ (baseScoreOf chunkHits r.trackId topKPerTrack)
      (diversityBonusOf chunkHits r.trackId diversityWeight) ∧
    r.baseScore = baseScoreOf chunkHits r.trackId topKPerTrack ∧
    r.diversityBonus = diversityBonusOf chunkHits r.trackId diversityWeight ∧
    r.topChunkScores = topKScores chunkHits r.trackId topKPerTrack := by
  simp only [aggregate_chunk_hits] at h
  split at h
  · cases h
  · have h1 : r ∈ (firstOccKeys [] (chunkHits.map (fun h => h.trackId))).filterMap
        (mkTrackResult chunkHits topKPerTrack diversityWeight exactMatchTrackId) :=
      ((List.perm_insertionSort _ _).mem_iff).1 h
    rcases List.mem_filterMap.1 h1 with ⟨tid, htid, hmk⟩
    unfold mkTrackResult at hmk
    split at hmk
    · cases hmk
    · rename_i hexcl
      injection hmk with hrec
      subst hrec
      exact ⟨mem_of_mem_firstOccKeys htid, hexcl, rfl, rfl, rfl, rfl⟩

/-- Every track id occurring among the hits has a nonempty chunk group,
hence a nonempty top-K score list whenever `0 < k`. -/
theorem topKScores_ne_nil {chunkHits : List ChunkHit} {tid : Nat} {k : Nat}
    (htid : tid ∈ chunkHits.map ChunkHit.trackId) (hk : 0 < k) :
    0 < (topKScores chunkHits tid k).length := by
  rcases List.mem_map.1 htid with ⟨hit, hhit, hht⟩
  have hmem : hit ∈ trackChunks chunkHits tid :=
    List.mem_filter.2 ⟨hhit, by simp [hht]⟩
  have hlen : 0 < (trackChunks chunkHits tid).length :=
    List.length_pos.2 (fun hnil => by simp [hnil] at hmem)
  have hslen : (sortedScoresDesc chunkHits tid).length
      = (trackChunks chunkHits tid).length := by
    unfold sortedScoresDesc
    rw [(List.perm_insertionSort _ _).length_eq, List.length_map]
  unfold topKScores
  rw [List.length_take, hslen]
  exact lt_min hk hlen

end AudioIdent.Aggregation

namespace AudioIdent

/-!  ## Claim theorems.  -/

/-- C1: evaluation of the pipeline model at a content-duplicate run in
which the Olaf write succeeded and embeddings were upserted.  The run does
return `duplicate`, but — contrary to the claim — at the moment the
duplicate is detected both the fingerprint-store write and the
vector-store write have already been performed (the dedup check runs in
the same `asyncio.gather` as the two index writes), the pipeline then
performs remote cleanup of both stores, and the copied canonical file is
never deleted. -/
theorem C1_content_dup_runs_after_index_writes :
    (Pipeline.ingest_file c1Env).status = Pipeline.IngestStatus.duplicate ∧
    (Pipeline.ingest_file c1Env).contentDupDetected = true ∧
    (Pipeline.ingest_file c1Env).effectsAtContentDupCheck =
      some { canonicalCopied := true, olafWritten := true, qdrantWritten := true } ∧
    (Pipeline.ingest_file c1Env).finalEffects.canonicalDeleted = false ∧
    (Pipeline.ingest_file c1Env).finalEffects.olafDeleted = true ∧
    (Pipeline.ingest_file c1Env).finalEffects.qdrantDeleted = true := by
  decide

/-- C2: evaluation of the pipeline model at the duration boundaries.  A
1.0 s decode (64000 bytes) is skipped with a `Too short` reason and a
2.999 s decode likewise; exactly 3.0 s and exactly 1800.0 s are accepted;
1800.001 s is skipped with a `Too long` reason — but, contrary to the
claim, the canonical file was already copied to storage (step 3 of the
code precedes decode and duration validation) and it is not removed on
the skip path. -/
theorem C2_duration_validation_copies_file_first :
    (Pipeline.ingest_file (c2Env 64000)).status = Pipeline.IngestStatus.skipped ∧
    (Pipeline.ingest_file (c2Env 64000)).reason = some Pipeline.IngestReason.tooShort ∧
    (Pipeline.ingest_file (c2Env 64000)).finalEffects.canonicalCopied = true ∧
    (Pipeline.ingest_file (c2Env 64000)).finalEffects.canonicalDeleted = false ∧
    (Pipeline.ingest_file (c2Env 191936)).status = Pipeline.IngestStatus.skipped ∧
    (Pipeline.ingest_file (c2Env 192000)).status = Pipeline.IngestStatus.success ∧
    (Pipeline.ingest_file (c2Env 115200000)).status = Pipeline.IngestStatus.success ∧
    (Pipeline.ingest_file (c2Env 115200064)).status = Pipeline.IngestStatus.skipped ∧
    (Pipeline.ingest_file (c2Env 115200064)).reason
      = some Pipeline.IngestReason.tooLong := by
  decide

/-- C6: classification of both-mode search after both lanes complete
independently: both timed out → the timeout error; both raised (but not
both by timeout) → the unavailable error; otherwise a successful response
in which a failed lane contributes the empty list. -/
theorem C6_both_mode_classification {α β : Type}
    (exactResult : Orchestrator.LaneOutcome α)
    (vibeResult : Orchestrator.LaneOutcome β) :
    (exactResult = Orchestrator.LaneOutcome.timedOut ∧
        vibeResult = Orchestrator.LaneOutcome.timedOut →
      Orchestrator.run_both_lanes exactResult vibeResult =
        Orchestrator.BothLanesResult.raised
          Orchestrator.SearchFailure.searchTimeout) ∧
    (exactResult.isFailure = true ∧ vibeResult.isFailure = true ∧
        ¬(exactResult = Orchestrator.LaneOutcome.timedOut ∧
          vibeResult = Orchestrator.LaneOutcome.timedOut) →
      Orchestrator.run_both_lanes exactResult vibeResult =
        Orchestrator.BothLanesResult.raised
          Orchestrator.SearchFailure.searchUnavailable) ∧
    (¬(exactResult.isFailure = true ∧ vibeResult.isFailure = true) →
      Orchestrator.run_both_lanes exactResult vibeResult =
        Orchestrator.BothLanesResult.completed
          exactResult.matchesOrEmpty vibeResult.matchesOrEmpty) ∧
    (exactResult.isFailure = true → exactResult.matchesOrEmpty = []) ∧
    (vibeResult.isFailure = true → vibeResult.matchesOrEmpty = []) := by
  cases exactResult <;> cases vibeResult <;>
    simp [Orchestrator.run_both_lanes, Orchestrator.LaneOutcome.isFailure,
      Orchestrator.LaneOutcome.isTimeout, Orchestrator.LaneOutcome.matchesOrEmpty]

/-- C6 witness: the classification at three concrete lane-outcome pairs. -/
theorem C6_both_mode_classification_witness :
    Orchestrator.run_both_lanes (α := Nat) (β := Nat)
        Orchestrator.LaneOutcome.timedOut Orchestrator.LaneOutcome.timedOut =
      Orchestrator.BothLanesResult.raised
        Orchestrator.SearchFailure.searchTimeout ∧
    Orchestrator.run_both_lanes (α := Nat) (β := Nat)
        Orchestrator.LaneOutcome.failed Orchestrator.LaneOutcome.timedOut =
      Orchestrator.BothLanesResult.raised
        Orchestrator.SearchFailure.searchUnavailable ∧
    Orchestrator.run_both_lanes (α := Nat) (β := Nat)
        (Orchestrator.LaneOutcome.ok [3]) Orchestrator.LaneOutcome.failed =
      Orchestrator.BothLanesResult.completed [3] [] :=
  ⟨(C6_both_mode_classification _ _).1 ⟨rfl, rfl⟩,
   (C6_both_mode_classification _ _).2.1 ⟨rfl, rfl, by decide⟩,
   (C6_both_mode_classification _ _).2.2.1 (by decide)⟩

/-- C8: the chunker's edge behaviours.  30 s of 48 kHz input yields
exactly 6 chunks at offsets 0, 5, 10, 15, 20, 25; 10 s yields exactly the
two chunks at offsets 0 and 5, the second carrying 5 s of signal
(240000 samples) zero-padded to the 10 s window (480000 samples); 0.5 s
yields no chunks; exactly 1 s yields exactly one chunk. -/
theorem C8_chunker_edge_behaviours :
    (Embedding.chunk_audio (30 * 48000)).map Embedding.AudioChunkShape.offsetSec
      = [0, 5, 10, 15, 20, 25] ∧
    (Embedding.chunk_audio (30 * 48000)).length = 6 ∧
    Embedding.chunk_audio (10 * 48000) =
      [{ offsetSec := 0, chunkIndex := 0, durationSec := 10,
         actualSamples := 480000, paddedSamples := 480000 },
       { offsetSec := 5, chunkIndex := 1, durationSec := 5,
         actualSamples := 240000, paddedSamples := 480000 }] ∧
    Embedding.chunk_audio 24000 = [] ∧
    (Embedding.chunk_audio 48000).length = 1 := by
  decide

/-- C9 counterexample: the claim asserts `sim(a, a) = 1.0` for *every*
non-empty `a`, but for the non-empty string `"x"` integer parsing fails
and the similarity is 0, not 1. -/
theorem C9_similarity_counterexample :
    (['x'] : List Char) ≠ [] ∧ Dedup.fingerprint_similarity ['x'] ['x'] ≠ 1 := by
  decide

/-- C9 (amended): fingerprint similarity is symmetric; `sim(a, a) = 1.0`
for every `a` that parses as a comma-separated list of integers (rather
than every non-empty `a`); the similarity is 0.0 whenever parsing either
fingerprint fails or either parsed list is empty; and fingerprints whose
parsed lists have different lengths cannot reach 1.0 because of the
`L / max(|a|, |b|)` length penalty. -/
theorem C9_similarity_properties :
    (∀ a b, Dedup.fingerprint_similarity a b = Dedup.fingerprint_similarity b a) ∧
    (∀ a l, Dedup.parseFingerprint a = some l →
      Dedup.fingerprint_similarity a a = 1) ∧
    (∀ a b, Dedup.parseFingerprint a = none ∨ Dedup.parseFingerprint b = none →
      Dedup.fingerprint_similarity a b = 0) ∧
    (∀ a b la lb, Dedup.parseFingerprint a = some la →
      Dedup.parseFingerprint b = some lb → la = [] ∨ lb = [] →
      Dedup.fingerprint_similarity a b = 0) ∧
    (∀ a b la lb, Dedup.parseFingerprint a = some la →
      Dedup.parseFingerprint b = some lb → la.length ≠ lb.length →
      Dedup.fingerprint_similarity a b < 1) := by
  refine ⟨?_, ?_, ?_, ?_, ?_⟩
  · intro a b
    simp only [Dedup.fingerprint_similarity]
    cases h1 : Dedup.parseFingerprint a <;> cases h2 : Dedup.parseFingerprint b
    · rfl
    · rfl
    · rfl
    · rename_i arr1 arr2
      simp only
      rw [Bool.or_comm, Dedup.totalMatchingBits_comm,
        pyminN_comm arr1.length arr2.length, pymaxN_comm arr1.length arr2.length]
  · intro a l hp
    have hne := Dedup.parseFingerprint_ne_nil hp
    have hlen : l.length ≠ 0 := fun h => hne (List.length_eq_zero.1 h)
    have hmin : pyminN l.length l.length = l.length := by simp [pyminN]
    have hmax : pymaxN l.length l.length = l.length := by simp [pymaxN]
    have h32 : ((l.length * 32 : Nat) : ℚ) ≠ 0 := by
      rw [Nat.cast_ne_zero]
      exact Nat.mul_ne_zero hlen (by norm_num)
    have hlenQ : ((l.length : Nat) : ℚ) ≠ 0 := Nat.cast_ne_zero.2 hlen
    simp only [Dedup.fingerprint_similarity, hp]
    rw [hmin, hmax, Dedup.totalMatchingBits_self,
      if_neg (by simp [hne]), if_neg hlen, divQ_self h32, divQ_self hlenQ,
      mulQ_eq_mul, mul_one]
  · intro a b h
    rcases h with h | h <;>
      cases h2 : Dedup.parseFingerprint b <;>
        cases h1 : Dedup.parseFingerprint a <;>
          simp_all [Dedup.fingerprint_similarity]
  · intro a b la lb hpa hpb hemp
    simp only [Dedup.fingerprint_similarity, hpa, hpb]
    rcases hemp with rfl | rfl
    · simp
    · simp
  · intro a b la lb hpa hpb hlen
    have hna := Dedup.parseFingerprint_ne_nil hpa
    have hnb := Dedup.parseFingerprint_ne_nil hpb
    have hla : la.length ≠ 0 := fun h => hna (List.length_eq_zero.1 h)
    have hlb : lb.length ≠ 0 := fun h => hnb (List.length_eq_zero.1 h)
    have hmin0 : pyminN la.length lb.length ≠ 0 := by
      rw [pyminN_eq_min]
      omega
    simp only [Dedup.fingerprint_similarity, hpa, hpb]
    rw [if_neg (by simp [hna, hnb]), if_neg hmin0, mulQ_eq_mul, divQ_eq_div,
      divQ_eq_div, pyminN_eq_min, pymaxN_eq_max]
    have hmM : min la.length lb.length < max la.length lb.length :=
      min_lt_max.2 hlen
    have hM0 : (0 : ℚ) < ((max la.length lb.length : Nat) : ℚ) :=
      Nat.cast_pos.2 (lt_of_le_of_lt (Nat.zero_le _) hmM)
    have h1 : (Dedup.totalMatchingBits la lb : ℚ)
        / ((min la.length lb.length * 32 : Nat) : ℚ) ≤ 1 := by
      apply div_le_one_of_le
      · exact_mod_cast pyminN_eq_min la.length lb.length ▸
          Dedup.totalMatchingBits_le la lb
      · positivity
    have h2 : ((min la.length lb.length : Nat) : ℚ)
        / ((max la.length lb.length : Nat) : ℚ) < 1 := by
      rw [div_lt_one hM0]
      exact_mod_cast hmM
    have h0 : (0 : ℚ) ≤ ((min la.length lb.length : Nat) : ℚ)
        / ((max la.length lb.length : Nat) : ℚ) := by positivity
    exact lt_of_le_of_lt (mul_le_of_le_one_left h0 h1) h2

/-- C3: for every reference path appearing in the sub-window query results
that parses as a track UUID, the consensus scorer emits a candidate whose
aligned-hash count is the total `S` of its match counts when `W ≥ 2`
distinct windows matched it, `max(⌊S/2⌋, 1)` when `W = 1`, and whose
offset is the median of the `reference_start` values of its matches. -/
theorem C3_consensus_scoring (parse : List Char → Option Nat)
    (windowResults : List (List ExactLane.OlafMatch)) (k : List Char) (u : Nat)
    (hparse : parse k = some u)
    (hk : k ∈ (ExactLane.windowPairs windowResults).map ExactLane.strippedPath) :
    ∃ c ∈ ExactLane.consensus_score parse windowResults,
      c.trackUuid = u ∧
      (2 ≤ ExactLane.numWindows windowResults k →
        c.alignedHashes = ExactLane.sumHashes windowResults k) ∧
      (ExactLane.numWindows windowResults k = 1 →
        c.alignedHashes = max ((ExactLane.sumHashes windowResults k).fdiv 2) 1) ∧
      c.offsetSeconds = some (median (ExactLane.refStarts windowResults k)) := by
  have hoffs : ExactLane.refStarts windowResults k ≠ [] := by
    rcases List.mem_map.1 hk with ⟨p, hp, hps⟩
    have hgrp : p ∈ ExactLane.groupOf k windowResults :=
      List.mem_filter.2 ⟨hp, by simp [hps]⟩
    intro hnil
    unfold ExactLane.refStarts at hnil
    rw [List.map_eq_nil] at hnil
    rw [hnil] at hgrp
    cases hgrp
  have hkeys : k ∈ firstOccKeys []
      ((ExactLane.windowPairs windowResults).map ExactLane.strippedPath) :=
    mem_firstOccKeys_of_mem hk (List.not_mem_nil k)
  refine ⟨{ trackUuid := u,
            alignedHashes :=
              if 2 ≤ ExactLane.numWindows windowResults k then
                ExactLane.sumHashes windowResults k
              else pymaxZ ((ExactLane.sumHashes windowResults k).fdiv 2) 1,
            offsetSeconds := some (median (ExactLane.refStarts windowResults k)) },
         List.mem_filterMap.2 ⟨k, hkeys, ?_⟩, rfl, ?_, ?_, rfl⟩
  · unfold ExactLane.mkCandidate
    rw [hparse]
    simp only [if_neg hoffs]
  · intro h2
    simp only [if_pos h2]
  · intro h1
    have h2 : ¬ 2 ≤ ExactLane.numWindows windowResults k := by omega
    simp only [if_neg h2, pymaxZ_eq_max]

/-- C3 witness: three windows each matching track `"a"` (UUID 7) with 12
hashes at reference starts 1 s, 3 s, 2 s: the candidate keeps
`aligned_hashes = 36` and offset `median [1, 3, 2] = 2`. -/
theorem C3_consensus_scoring_witness :
    ∃ c ∈ ExactLane.consensus_score c3Parse c3Windows,
      c.trackUuid = 7 ∧
      (2 ≤ ExactLane.numWindows c3Windows ['a'] →
        c.alignedHashes = ExactLane.sumHashes c3Windows ['a']) ∧
      (ExactLane.numWindows c3Windows ['a'] = 1 →
        c.alignedHashes = max ((ExactLane.sumHashes c3Windows ['a']).fdiv 2) 1) ∧
      c.offsetSeconds = some (median (ExactLane.refStarts c3Windows ['a'])) :=
  C3_consensus_scoring c3Parse c3Windows ['a'] 7 (by decide) (by decide)

/-- C4: aggregation output is sorted by final score descending, contains
each track at most once, never contains the excluded exact-match track,
and every result's scores follow the Top-K-Average-with-Diversity-Bonus
formulas. -/
theorem C4_aggregation (chunkHits : List Aggregation.ChunkHit)
    (topKPerTrack : Nat) (diversityWeight : ℚ) (exactMatchTrackId : Option Nat)
    (hk : 0 < topKPerTrack) :
    List.Sorted (fun a b : Aggregation.TrackResult => b.finalScore ≤ a.finalScore)
      (Aggregation.aggregate_chunk_hits chunkHits topKPerTrack diversityWeight
        exactMatchTrackId) ∧
    ((Aggregation.aggregate_chunk_hits chunkHits topKPerTrack diversityWeight
        exactMatchTrackId).map Aggregation.TrackResult.trackId).Nodup ∧
    (∀ x, exactMatchTrackId = some x →
      ∀ r ∈ Aggregation.aggregate_chunk_hits chunkHits topKPerTrack diversityWeight
        exactMatchTrackId, r.trackId ≠ x) ∧
    (∀ r ∈ Aggregation.aggregate_chunk_hits chunkHits topKPerTrack diversityWeight
        exactMatchTrackId,
      r.finalScore = r.baseScore + r.diversityBonus ∧
      r.baseScore = (Aggregation.topKScores chunkHits r.trackId topKPerTrack).sum /
        ((Aggregation.topKScores chunkHits r.trackId topKPerTrack).length : ℚ) ∧
      r.topChunkScores = Aggregation.topKScores chunkHits r.trackId topKPerTrack ∧
      0 < (Aggregation.topKScores chunkHits r.trackId topKPerTrack).length ∧
      r.diversityBonus =
        min ((Aggregation.uniqueOffsets chunkHits r.trackId : ℚ) / 5) 1
          * diversityWeight) := by
  refine ⟨?_, ?_, ?_, ?_⟩
  · simp only [Aggregation.aggregate_chunk_hits]
    split
    · exact List.sorted_nil
    · exact sorted_insertionSort_of
        (fun a b : Aggregation.TrackResult => b.finalScore ≤ a.finalScore)
        (fun a b => le_total _ _) (fun a b c hab hbc => le_trans hbc hab) _
  · simp only [Aggregation.aggregate_chunk_hits]
    split
    · simp
    · have hperm := (List.perm_insertionSort
        (fun a b : Aggregation.TrackResult => b.finalScore ≤ a.finalScore)
        ((firstOccKeys [] (chunkHits.map (fun h => h.trackId))).filterMap
          (Aggregation.mkTrackResult chunkHits topKPerTrack diversityWeight
            exactMatchTrackId))).map Aggregation.TrackResult.trackId
      rw [hperm.nodup_iff]
      apply nodup_map_filterMap _ _ id
      · intro tid r hmk
        unfold Aggregation.mkTrackResult at hmk
        split at hmk
        · cases hmk
        · injection hmk with h
          subst h
          rfl
      · rw [List.map_id]
        exact nodup_firstOccKeys _ _
  · intro x hx r hr hrx
    rcases Aggregation.mem_aggregate_chunk_hits hr with ⟨_, hexcl, _⟩
    exact hexcl (by rw [hx, hrx])
  · intro r hr
    rcases Aggregation.mem_aggregate_chunk_hits hr with
      ⟨htid, _, hfinal, hbase, hbonus, htop⟩
    refine ⟨?_, ?_, htop, Aggregation.topKScores_ne_nil htid hk, ?_⟩
    · rw [hfinal, addQ_eq_add, hbase, hbonus]
    · rw [hbase]
      unfold Aggregation.baseScoreOf
      rw [divQ_eq_div, sumQ_eq_sum]
    · rw [hbonus]
      unfold Aggregation.diversityBonusOf
      rw [mulQ_eq_mul, pyminQ_eq_min, divQ_eq_div]

/-- C4 witness: the spec's end-to-end scenario 4 at the default
parameters, together with the formula conclusions at track 1's result. -/
theorem C4_aggregation_witness :
    List.Sorted (fun a b : Aggregation.TrackResult => b.finalScore ≤ a.finalScore)
      (Aggregation.aggregate_chunk_hits c4Hits 3 (mkRat 1 20) none) ∧
    ((Aggregation.aggregate_chunk_hits c4Hits 3 (mkRat 1 20) none).map
      Aggregation.TrackResult.trackId).Nodup ∧
    (c4Result.finalScore = c4Result.baseScore + c4Result.diversityBonus ∧
     c4Result.baseScore = (Aggregation.topKScores c4Hits c4Result.trackId 3).sum /
       ((Aggregation.topKScores c4Hits c4Result.trackId 3).length : ℚ) ∧
     c4Result.topChunkScores = Aggregation.topKScores c4Hits c4Result.trackId 3 ∧
     0 < (Aggregation.topKScores c4Hits c4Result.trackId 3).length ∧
     c4Result.diversityBonus =
       min ((Aggregation.uniqueOffsets c4Hits c4Result.trackId : ℚ) / 5) 1
         * mkRat 1 20) :=
  ⟨(C4_aggregation c4Hits 3 (mkRat 1 20) none (by decide)).1,
   (C4_aggregation c4Hits 3 (mkRat 1 20) none (by decide)).2.1,
   (C4_aggregation c4Hits 3 (mkRat 1 20) none (by decide)).2.2.2 c4Result
     (by decide)⟩

/-- C5: every returned exact match carries the normalized confidence
`min(aligned_hashes / 20, 1)` of its own aligned-hash count, confidences
lie in `[0, 1]`, every returned `aligned_hashes` is at least 8, the list
is sorted by confidence descending, and at most `maxResults` matches are
returned. -/
theorem C5_exact_lane_response (db : Nat → Option TrackInfoM)
    (scoredMatches : List ExactLane.ScoredCandidate) (maxResults : Nat) :
    (∀ m ∈ ExactLane.run_exact_lane_post db scoredMatches maxResults,
      m.confidence = ExactLane.normalize_confidence m.alignedHashes ∧
      m.confidence = min ((m.alignedHashes : ℚ) / 20) 1 ∧
      0 ≤ m.confidence ∧ m.confidence ≤ 1 ∧
      ExactLane.MIN_ALIGNED_HASHES ≤ m.alignedHashes) ∧
    List.Sorted (fun a b : ExactLane.ExactMatchM => b.confidence ≤ a.confidence)
      (ExactLane.run_exact_lane_post db scoredMatches maxResults) ∧
    (ExactLane.run_exact_lane_post db scoredMatches maxResults).length
      ≤ maxResults := by
  refine ⟨?_, ?_, ?_⟩
  · intro m hm
    rcases ExactLane.mem_run_exact_lane_post hm with
      ⟨c, _, hc8, hconf, haligned, _⟩
    have hc8' : (8 : ℤ) ≤ c.alignedHashes := hc8
    have hpos : (0 : ℤ) < c.alignedHashes := lt_of_lt_of_le (by norm_num) hc8'
    have hnormal : ExactLane.normalize_confidence c.alignedHashes
        = min ((c.alignedHashes : ℚ) / 20) 1 := by
      unfold ExactLane.normalize_confidence
      rw [if_neg (not_le.2 hpos), pyminQ_eq_min, divQ_eq_div]
      norm_num [ExactLane.STRONG_MATCH_HASHES]
    refine ⟨by rw [hconf, haligned], by rw [hconf, hnormal, haligned], ?_, ?_, ?_⟩
    · rw [hconf, hnormal]
      refine le_min (div_nonneg ?_ (by norm_num)) (by norm_num)
      exact_mod_cast hpos.le
    · rw [hconf, hnormal]
      exact min_le_right _ _
    · rw [haligned]
      exact hc8
  · simp only [ExactLane.run_exact_lane_post]
    split
    · exact List.sorted_nil
    · unfold ExactLane.enrich_with_metadata
      refine List.Pairwise.filterMap
        (R := fun a b : ExactLane.ScoredCandidate => b.confidence ≤ a.confidence)
        _ ?_ ?_
      · intro c c' hcc' m hm m' hm'
        rcases Option.map_eq_some'.1 hm with ⟨t, _, hmk⟩
        rcases Option.map_eq_some'.1 hm' with ⟨t', _, hmk'⟩
        rw [← hmk, ← hmk']
        exact hcc'
      · refine List.Pairwise.sublist (List.take_sublist _ _) ?_
        exact sorted_insertionSort_of
          (fun a b : ExactLane.ScoredCandidate => b.confidence ≤ a.confidence)
          (fun a b => le_total _ _) (fun a b c hab hbc => le_trans hbc hab) _
  · simp only [ExactLane.run_exact_lane_post]
    split
    · simp
    · unfold ExactLane.enrich_with_metadata
      exact le_trans (List.length_filterMap_le _ _) (List.length_take_le _ _)

/-- C5 witness: the exact-lane post-processing at three candidates (one of
which fails the minimum-hash filter), checked at the returned strong
match. -/
theorem C5_exact_lane_response_witness :
    (c5Match.confidence = ExactLane.normalize_confidence c5Match.alignedHashes ∧
     c5Match.confidence = min ((c5Match.alignedHashes : ℚ) / 20) 1 ∧
     0 ≤ c5Match.confidence ∧ c5Match.confidence ≤ 1 ∧
     ExactLane.MIN_ALIGNED_HASHES ≤ c5Match.alignedHashes) ∧
    List.Sorted (fun a b : ExactLane.ExactMatchM => b.confidence ≤ a.confidence)
      (ExactLane.run_exact_lane_post c5Db c5Scored 10) ∧
    (ExactLane.run_exact_lane_post c5Db c5Scored 10).length ≤ 10 :=
  ⟨(C5_exact_lane_response c5Db c5Scored 10).1 c5Match (by decide),
   (C5_exact_lane_response c5Db c5Scored 10).2.1,
   (C5_exact_lane_response c5Db c5Scored 10).2.2⟩

/-- C7: every returned vibe match has similarity in `[0, 1]` equal to
`min(final_score, 1)` of an aggregated track result whose final score was
at least the threshold before truncation. -/
theorem C7_vibe_lane_response (db : Nat → Option TrackInfoM)
    (chunkHits : List Aggregation.ChunkHit) (threshold : ℚ) (maxResults : Nat)
    (exactMatchTrackId : Option Nat) (hthr : 0 ≤ threshold) :
    ∀ vm ∈ Vibe.run_vibe_lane_post db chunkHits threshold maxResults
      exactMatchTrackId,
      0 ≤ vm.similarity ∧ vm.similarity ≤ 1 ∧
      ∃ r ∈ Aggregation.aggregate_chunk_hits chunkHits 3 (mkRat 1 20)
          exactMatchTrackId,
        threshold ≤ r.finalScore ∧ vm.similarity = min r.finalScore 1 := by
  intro vm hvm
  simp only [Vibe.run_vibe_lane_post] at hvm
  split at hvm
  · cases hvm
  · split at hvm
    · cases hvm
    · split at hvm
      · cases hvm
      · rcases List.mem_filterMap.1 hvm with ⟨r, hr, hsome⟩
        rcases Option.map_eq_some'.1 hsome with ⟨t, _, hmk⟩
        have hr2 := List.mem_filter.1 (List.mem_of_mem_take hr)
        have hthr' : threshold ≤ r.finalScore := of_decide_eq_true hr2.2
        have hsim : vm.similarity = pyminQ r.finalScore 1 := by rw [← hmk]
        refine ⟨?_, ?_, r, hr2.1, hthr', by rw [hsim, pyminQ_eq_min]⟩
        · rw [hsim, pyminQ_eq_min]
          exact le_min (le_trans hthr hthr') (by norm_num)
        · rw [hsim, pyminQ_eq_min]
          exact min_le_right _ _

/-- C7 witness: one track whose chunk scores aggregate to `0.88`, above
the default threshold `0.60`; its similarity is `min(0.88, 1) = 0.88`. -/
theorem C7_vibe_lane_response_witness :
    0 ≤ c7Match.similarity ∧ c7Match.similarity ≤ 1 ∧
    ∃ r ∈ Aggregation.aggregate_chunk_hits c7Hits 3 (mkRat 1 20) none,
      Vibe.vibe_match_threshold ≤ r.finalScore ∧
      c7Match.similarity = min r.finalScore 1 :=
  C7_vibe_lane_response c7Db c7Hits Vibe.vibe_match_threshold 10 none
    (by decide) c7Match (by decide)

/-- C10: every match returned by the exact lane has confidence at least
`0.4`, because the minimum-aligned-hashes filter (`≥ 8`) runs before
confidence normalization and `min(8 / 20, 1) = 0.4`. -/
theorem C10_confidence_floor (db : Nat → Option TrackInfoM)
    (scoredMatches : List ExactLane.ScoredCandidate) (maxResults : Nat) :
    ∀ m ∈ ExactLane.run_exact_lane_post db scoredMatches maxResults,
      (2 / 5 : ℚ) ≤ m.confidence := by
  intro m hm
  rcases ExactLane.mem_run_exact_lane_post hm with ⟨c, _, hc8, hconf, _, _⟩
  have hc8' : (8 : ℤ) ≤ c.alignedHashes := hc8
  have hpos : (0 : ℤ) < c.alignedHashes := lt_of_lt_of_le (by norm_num) hc8'
  have h8 : (8 : ℚ) ≤ (c.alignedHashes : ℚ) := by exact_mod_cast hc8'
  rw [hconf]
  unfold ExactLane.normalize_confidence
  rw [if_neg (not_le.2 hpos), pyminQ_eq_min, divQ_eq_div,
    show ((ExactLane.STRONG_MATCH_HASHES : ℤ) : ℚ) = 20 by
      norm_num [ExactLane.STRONG_MATCH_HASHES]]
  refine le_min ?_ (by norm_num)
  linarith

/-- C10 witness: a candidate at exactly 8 aligned hashes is returned with
confidence exactly `8 / 20 = 0.4`. -/
theorem C10_confidence_floor_witness : (2 / 5 : ℚ) ≤ c10Match.confidence :=
  C10_confidence_floor c10Db c10Scored 10 c10Match (by decide)

/-- C9 witness: the amended properties at concrete fingerprints. -/
theorem C9_similarity_properties_witness :
    Dedup.fingerprint_similarity "1,2".toList "3".toList
      = Dedup.fingerprint_similarity "3".toList "1,2".toList ∧
    Dedup.fingerprint_similarity "1,2".toList "1,2".toList = 1 ∧
    Dedup.fingerprint_similarity "x".toList "1".toList = 0 ∧
    Dedup.fingerprint_similarity "1".toList "1,2".toList < 1 :=
  ⟨C9_similarity_properties.1 _ _,
   C9_similarity_properties.2.1 _ [1, 2] (by decide),
   C9_similarity_properties.2.2.1 _ _ (Or.inl (by decide)),
   C9_similarity_properties.2.2.2.2 _ _ [1] [1, 2] (by decide) (by decide)
     (by decide)⟩

end AudioIdent
